import Mathlib

/-
Verification of the Execution Roadmap data core: the health-status
classifier/lookup utilities (useHealthStatus, healthStatusFormatters) and the
item-fetching workflow (useExecutionItems), shallowly embedded from the
TypeScript source.
-/

namespace NexusUI

/-- The closed three-value health-status enumeration
(type HealthStatus = 'on-track' | 'at-risk' | 'off-track'). -/
inductive HealthStatus where
  | onTrack
  | atRisk
  | offTrack
deriving DecidableEq, Repr

/-- The literal string denoted by each HealthStatus enumeration value. -/
def HealthStatus.toStr : HealthStatus → String
  | .onTrack => "on-track"
  | .atRisk => "at-risk"
  | .offTrack => "off-track"

/-- interface ExecutionItem: one roadmap row
(moduleName, owner, pm, healthStatus, teamWorking, okrHierarchy). -/
structure ExecutionItem where
  moduleName : String
  owner : String
  pm : String
  healthStatus : HealthStatus
  teamWorking : String
  okrHierarchy : String
deriving DecidableEq, Repr

/-- classifyStatus from useHealthStatus: current implementation passes the
item's existing healthStatus through unchanged. -/
def classifyStatus (item : ExecutionItem) : HealthStatus :=
  item.healthStatus

/-- interface HealthStatusConfig: visual representation properties for a
status badge. The severity field holds one of the literal strings
success / warning / error. -/
structure HealthStatusConfig where
  label : String
  color : String
  backgroundColor : String
  severity : String
deriving DecidableEq, Repr

/-- HEALTH_STATUS_CONFIG: the static Record mapping each HealthStatus to its
configuration, transcribed field by field from the source table. -/
def HEALTH_STATUS_CONFIG : HealthStatus → HealthStatusConfig
  | .onTrack =>
    { label := "On Track"
      color := "#0ed183"
      backgroundColor := "#eefbf2"
      severity := "success" }
  | .atRisk =>
    { label := "At Risk"
      color := "#ff514e"
      backgroundColor := "#ffefed"
      severity := "error" }
  | .offTrack =>
    { label := "Off Track"
      color := "#ffab26"
      backgroundColor := "#fff7ed"
      severity := "warning" }

/-- getStatusConfig from useHealthStatus: direct lookup in
HEALTH_STATUS_CONFIG. -/
def getStatusConfig (status : HealthStatus) : HealthStatusConfig :=
  HEALTH_STATUS_CONFIG status

/-- isValidStatus from useHealthStatus: membership test of the raw string in
the array of the three literal enumeration strings. -/
def isValidStatus (value : String) : Bool :=
  ["on-track", "at-risk", "off-track"].contains value

/-- getAllStatuses from useHealthStatus: the three enumeration values. -/
def getAllStatuses : List HealthStatus :=
  [.onTrack, .atRisk, .offTrack]

/-- interface StatusColors from the badge-formatting module
(text color, background color). -/
structure StatusColors where
  text : String
  background : String
deriving DecidableEq, Repr

/-- getStatusLabel from the badge-formatting module. The TypeScript input
type is HealthStatus | undefined | null; `none` stands for both undefined and
null, which the source's falsiness guard (if (!status)) treats identically. -/
def getStatusLabel : Option HealthStatus → String
  | none => "Unknown"
  | some .onTrack => "On track"
  | some .atRisk => "At Risks"
  | some .offTrack => "Off Track"

/-- getStatusColor from the badge-formatting module, including the gray
fallback for undefined/null. -/
def getStatusColor : Option HealthStatus → StatusColors
  | none => { text := "#656b75", background := "#f3f3f3" }
  | some .onTrack => { text := "#0ed183", background := "#eefbf2" }
  | some .atRisk => { text := "#ff514e", background := "#ffefed" }
  | some .offTrack => { text := "#ffab26", background := "#fff7ed" }

/-- getStatusClassName from the badge-formatting module: template
health-status-${status}, with the unknown fallback for undefined/null. -/
def getStatusClassName : Option HealthStatus → String
  | none => "health-status-unknown"
  | some status => "health-status-" ++ status.toStr

/-
JavaScript runtime value model for the fetch pipeline. fetchItems receives
the parsed response body untyped (response.json() returns any), so the
embedding works over a JSON value tree plus the undefined value that
property access can produce.
-/

/-- Runtime value produced by response.json() and by property access on such
values. JSON numbers are modeled as integers: the pipeline never computes
with numbers, it only stores them. -/
inductive Json where
  | undef
  | null
  | bool (b : Bool)
  | num (n : Int)
  | str (s : String)
  | arr (elems : List Json)
  | obj (fields : List (String × Json))
deriving Inhabited

/-- JavaScript truthiness of a runtime value (objects and arrays are always
truthy; undefined, null, false, 0 and the empty string are falsy). -/
def Json.truthy : Json → Bool
  | .undef => false
  | .null => false
  | .bool b => b
  | .num n => n != 0
  | .str s => s != ""
  | .arr _ => true
  | .obj _ => true

/-- Array.isArray on a runtime value. -/
def Json.isArrayVal : Json → Bool
  | .arr _ => true
  | _ => false

/-- The element list of an array value (only consulted after Array.isArray
has been checked). -/
def Json.arrElems : Json → List Json
  | .arr es => es
  | _ => []

/-- JavaScript property read v[k]: throws a TypeError on null and undefined
(message text as produced by V8), returns the field of an object (undefined
when absent), and undefined on every other primitive. -/
def jsGetField : Json → String → Except String Json
  | .null, k =>
    Except.error ("Cannot read properties of null (reading \x27" ++ (k ++ "\x27)"))
  | .undef, k =>
    Except.error ("Cannot read properties of undefined (reading \x27" ++ (k ++ "\x27)"))
  | .obj fields, k => Except.ok ((fields.lookup k).getD Json.undef)
  | _, _ => Except.ok Json.undef

/-- Own enumerable properties contributed by object-spread {...v}: an
object's fields, index properties for arrays and strings, nothing for the
other primitives (spreading null/undefined yields no properties and does not
throw). -/
def spreadFields : Json → List (String × Json)
  | .obj fields => fields
  | .arr es => es.enum.map (fun p => (toString p.1, p.2))
  | .str s => s.data.enum.map (fun p => (toString p.1, Json.str (String.singleton p.2)))
  | _ => []

/-- Object-literal key update: a key that already exists keeps its position
and gets the new value (JavaScript property-order semantics); a new key is
appended. -/
def setField : List (String × Json) → String → Json → List (String × Json)
  | [], k, v => [(k, v)]
  | (k₀, v₀) :: rest, k, v =>
    if k₀ = k then (k, v) :: rest else (k₀, v₀) :: setField rest k v

/-- classifyStatus as it executes inside fetchItems on an untyped runtime
element: the body `return item.healthStatus` is a property read, which throws
on a null or undefined element. -/
def classifyStatusJs (item : Json) : Except String Json :=
  jsGetField item "healthStatus"

/-- One map step of the normalization
`data.items.map(item => ({ ...item, healthStatus: classifyStatus(item) }))`.
The spread itself never throws, so evaluating the classifyStatus call first
is observationally the same as the source's left-to-right property order. -/
def normalizeItem (item : Json) : Except String Json :=
  match classifyStatusJs item with
  | Except.error m => Except.error m
  | Except.ok hs => Except.ok (Json.obj (setField (spreadFields item) "healthStatus" hs))

/-
Embedding of useExecutionItems (the Item Fetcher).
-/

/-- The two Vite environment variables read by getApiConfig; none models an
unset variable. -/
structure Env where
  viteApiBaseUrl : Option String
  viteApiExecutionItemsEndpoint : Option String

/-- JavaScript `value || fallback` on an optional environment string: the
fallback is taken when the variable is unset or empty (both are falsy). -/
def orFalsy (v : Option String) (fallback : String) : String :=
  match v with
  | none => fallback
  | some s => if s = "" then fallback else s

/-- The record returned by getApiConfig. -/
structure ApiConfig where
  baseUrl : String
  endpoint : String
  fullUrl : String
deriving DecidableEq, Repr

/-- getApiConfig from useExecutionItems: base URL defaults to the empty
string, endpoint defaults to /api/execution-items, full URL is their
concatenation. -/
def getApiConfig (env : Env) : ApiConfig :=
  let baseUrl := orFalsy env.viteApiBaseUrl ""
  let endpoint := orFalsy env.viteApiExecutionItemsEndpoint "/api/execution-items"
  { baseUrl := baseUrl, endpoint := endpoint, fullUrl := baseUrl ++ endpoint }

/-- The URL fetchItems requests. -/
def apiUrl (env : Env) : String :=
  (getApiConfig env).fullUrl

/-- What `await fetch(url, ...)` did for one run: either the transport layer
rejected (connection refused, DNS failure, ...) with an Error message, or a
response arrived with a status code, a status text, and a body whose JSON
parse either fails with a SyntaxError message or yields a value. -/
inductive FetchOutcome where
  | networkError (msg : String)
  | response (status : Nat) (statusText : String) (body : Except String Json)

/-- The configuration-error message thrown when the resolved URL is empty. -/
def configErrorMsg : String :=
  "API endpoint not configured. Please set VITE_API_BASE_URL and VITE_API_EXECUTION_ITEMS_ENDPOINT environment variables."

/-- The HTTP-error message, interpolating status code and status text. -/
def httpErrorMsg (status : Nat) (statusText : String) : String :=
  "Failed to fetch execution items: " ++ (toString status ++ (" " ++ statusText))

/-- The validation-error message for a missing or invalid items field. -/
def invalidItemsMsg : String :=
  "Invalid API response: missing or invalid \"items\" array"

/-- Steps 4-6 of fetchItems on an arrived outcome: response.ok check
(status in 200..299), response.json(), then the guard
`if (!data.items || !Array.isArray(data.items)) throw`, yielding the raw
element list of data.items. -/
def fetchRawItems : FetchOutcome → Except String (List Json)
  | .networkError msg => Except.error msg
  | .response status statusText body =>
    if (200 ≤ status && status ≤ 299) = false then
      Except.error (httpErrorMsg status statusText)
    else
      match body with
      | Except.error m => Except.error m
      | Except.ok data =>
        match jsGetField data "items" with
        | Except.error m => Except.error m
        | Except.ok itemsField =>
          if (itemsField.truthy = false) ∨ (itemsField.isArrayVal = false) then
            Except.error invalidItemsMsg
          else
            Except.ok itemsField.arrElems

/-- The try-block of fetchItems excluding the final map: configuration check
then the response pipeline. The network is a function from the requested URL
to its outcome. -/
def runFetchRaw (env : Env) (net : String → FetchOutcome) : Except String (List Json) :=
  let config := getApiConfig env
  if config.fullUrl = "" then
    Except.error configErrorMsg
  else
    fetchRawItems (net config.fullUrl)

/-- Array.prototype.map under a callback that can throw: the first thrown
error propagates and the partial results are discarded. -/
def mapExcept (f : Json → Except String Json) : List Json → Except String (List Json)
  | [] => Except.ok []
  | x :: xs =>
    match f x with
    | Except.error m => Except.error m
    | Except.ok y =>
      match mapExcept f xs with
      | Except.error m => Except.error m
      | Except.ok ys => Except.ok (y :: ys)

/-- The whole try-block of fetchItems: raw items then the normalization map. -/
def runFetch (env : Env) (net : String → FetchOutcome) : Except String (List Json) :=
  match runFetchRaw env net with
  | Except.error m => Except.error m
  | Except.ok rawItems => mapExcept normalizeItem rawItems

/-- The three observable refs of useExecutionItems. -/
structure FetcherState where
  items : List Json
  loading : Bool
  error : Option String
deriving Inhabited

/-- The refs as useExecutionItems initializes them. -/
def initialState : FetcherState :=
  { items := [], loading := false, error := none }

/-- fetchItems: loading := true and error := null up front; on success items
is replaced by the normalized list; the catch-all stores the error message
(every throw site in the pipeline throws an Error, so err.message is always
taken) and resets items; the finally clause sets loading := false on both
paths. The function is total: the returned promise always resolves. -/
def fetchItems (env : Env) (net : String → FetchOutcome) (st : FetcherState) : FetcherState :=
  let started : FetcherState := { st with loading := true, error := none }
  match runFetch env net with
  | Except.ok newItems => { started with items := newItems, loading := false }
  | Except.error msg =>
    { started with error := some msg, items := [], loading := false }

/-- refetch: simply awaits fetchItems. -/
def refetch (env : Env) (net : String → FetchOutcome) (st : FetcherState) : FetcherState :=
  fetchItems env net st

/-- The JSON encoding of an ExecutionItem, fields in interface order, as a
well-formed response element. -/
def ExecutionItem.toJson (it : ExecutionItem) : Json :=
  Json.obj
    [("moduleName", Json.str it.moduleName),
     ("owner", Json.str it.owner),
     ("pm", Json.str it.pm),
     ("healthStatus", Json.str it.healthStatus.toStr),
     ("teamWorking", Json.str it.teamWorking),
     ("okrHierarchy", Json.str it.okrHierarchy)]

/-- Substring containment, stated on the underlying character lists. -/
def strContains (hay needle : String) : Prop :=
  ∃ pre post, hay.data = pre ++ needle.data ++ post

/-- A concrete execution item, used to evaluate the success path. -/
def sampleItem : ExecutionItem :=
  { moduleName := "Authentication Module", owner := "John Doe", pm := "Jane Smith",
    healthStatus := .onTrack, teamWorking := "Squad 1", okrHierarchy := "O1 > KR1" }

/-- A concrete well-formed response body holding sampleItem. -/
def sampleBody : Json :=
  Json.obj [("items", Json.arr [sampleItem.toJson]), ("total", Json.num 1)]

/-- A network that answers every request with HTTP 200 and sampleBody. -/
def sampleNet : String → FetchOutcome :=
  fun _ => FetchOutcome.response 200 "OK" (Except.ok sampleBody)

/-- A network that answers with HTTP 200 and a parseable body lacking the
items field (the body from the spec's example, total of 10). -/
def noItemsNet : String → FetchOutcome :=
  fun _ => FetchOutcome.response 200 "OK" (Except.ok (Json.obj [("total", Json.num 10)]))

/-- C7: for every value of the three-value HealthStatus enumeration,
getStatusConfig returns the fully-populated record of the static table
(on-track ↦ On Track / #0ed183 / #eefbf2 / success, at-risk ↦ At Risk /
#ff514e / #ffefed / error, off-track ↦ Off Track / #ffab26 / #fff7ed /
warning), and the three records are pairwise distinct. -/
theorem getStatusConfig_table :
    getStatusConfig .onTrack =
      { label := "On Track", color := "#0ed183",
        backgroundColor := "#eefbf2", severity := "success" } ∧
    getStatusConfig .atRisk =
      { label := "At Risk", color := "#ff514e",
        backgroundColor := "#ffefed", severity := "error" } ∧
    getStatusConfig .offTrack =
      { label := "Off Track", color := "#ffab26",
        backgroundColor := "#fff7ed", severity := "warning" } ∧
    getStatusConfig .onTrack ≠ getStatusConfig .atRisk ∧
    getStatusConfig .onTrack ≠ getStatusConfig .offTrack ∧
    getStatusConfig .atRisk ≠ getStatusConfig .offTrack := by
  refine ⟨rfl, rfl, rfl, ?_, ?_, ?_⟩ <;> decide

/-- C8: the second, independent pair of badge-formatting functions implements
its own lookup table verbatim, including the label-text discrepancy with the
first table (On track / At Risks / Off Track), the Unknown label, the gray
fallback colors #656b75 on #f3f3f3, and the health-status-unknown class name
for undefined/null input. -/
theorem badge_formatting_table :
    getStatusLabel (some .onTrack) = "On track" ∧
    getStatusLabel (some .atRisk) = "At Risks" ∧
    getStatusLabel (some .offTrack) = "Off Track" ∧
    getStatusLabel none = "Unknown" ∧
    getStatusColor (some .onTrack) = { text := "#0ed183", background := "#eefbf2" } ∧
    getStatusColor (some .atRisk) = { text := "#ff514e", background := "#ffefed" } ∧
    getStatusColor (some .offTrack) = { text := "#ffab26", background := "#fff7ed" } ∧
    getStatusColor none = { text := "#656b75", background := "#f3f3f3" } ∧
    getStatusClassName none = "health-status-unknown" := by
  refine ⟨rfl, rfl, rfl, rfl, rfl, rfl, rfl, rfl, rfl⟩

/-- C9: isValidStatus returns true exactly on the three literal enumeration
strings, case-sensitively; in particular it rejects At Risk, ON-TRACK and
the empty string. -/
theorem isValidStatus_iff :
    (∀ value : String,
      isValidStatus value = true ↔
        value = "on-track" ∨ value = "at-risk" ∨ value = "off-track") ∧
    isValidStatus "At Risk" = false ∧
    isValidStatus "ON-TRACK" = false ∧
    isValidStatus "" = false := by
  refine ⟨?_, by decide, by decide, by decide⟩
  intro value
  simp [isValidStatus]

/-- C10: classifyStatus is the identity on the item's health status for every
execution item. -/
theorem classifyStatus_identity :
    ∀ item : ExecutionItem, classifyStatus item = item.healthStatus := by
  intro item
  rfl

/-- String append acts as list append on the character data. -/
lemma data_append (a b : String) : (a ++ b).data = a.data ++ b.data := rfl

/-- The JavaScript or-with-fallback never yields the empty string when the
fallback is non-empty. -/
lemma orFalsy_ne_empty (v : Option String) (fallback : String) (hf : fallback ≠ "") :
    orFalsy v fallback ≠ "" := by
  unfold orFalsy
  match v with
  | none => exact hf
  | some s =>
    by_cases hs : s = "" <;> simp [hs, hf]

/-- The resolved full URL is never empty: the endpoint component always
falls back to /api/execution-items. -/
lemma fullUrl_ne_empty (env : Env) : (getApiConfig env).fullUrl ≠ "" := by
  intro h
  have he : orFalsy env.viteApiExecutionItemsEndpoint "/api/execution-items" ≠ "" :=
    orFalsy_ne_empty _ _ (by decide)
  have hd : (getApiConfig env).fullUrl.data = [] := by rw [h]
  rw [show (getApiConfig env).fullUrl =
      orFalsy env.viteApiBaseUrl "" ++
        orFalsy env.viteApiExecutionItemsEndpoint "/api/execution-items" from rfl,
    data_append] at hd
  exact he (String.ext (List.append_eq_nil.mp hd).2)

/-- The configuration guard in the try-block always falls through to the
response pipeline. -/
lemma runFetchRaw_eq (env : Env) (net : String → FetchOutcome) :
    runFetchRaw env net = fetchRawItems (net (getApiConfig env).fullUrl) := by
  unfold runFetchRaw
  rw [if_neg (fullUrl_ne_empty env)]

/-- Whenever a property read throws, the TypeError message mentions the
requested key. -/
lemma jsGetField_error_contains (v : Json) (k m : String)
    (h : jsGetField v k = Except.error m) : strContains m k := by
  cases v <;> simp [jsGetField] at h
  case null =>
    exact ⟨"Cannot read properties of null (reading \x27".data, "\x27)".data,
      by rw [← h]; simp [data_append, List.append_assoc]⟩
  case undef =>
    exact ⟨"Cannot read properties of undefined (reading \x27".data, "\x27)".data,
      by rw [← h]; simp [data_append, List.append_assoc]⟩

/-- The validation message names the items field. -/
lemma invalidItemsMsg_contains : strContains invalidItemsMsg "items" :=
  ⟨"Invalid API response: missing or invalid \"".data, "\" array".data, by decide⟩

/-- Normalizing the JSON encoding of a typed execution item succeeds and,
because classifyStatus passes the health status through, returns the
encoding unchanged. -/
lemma normalize_toJson (w : ExecutionItem) :
    normalizeItem (ExecutionItem.toJson w) = Except.ok (ExecutionItem.toJson w) := by
  simp [normalizeItem, classifyStatusJs, jsGetField, ExecutionItem.toJson,
    spreadFields, setField, List.lookup]

/-- The normalization map succeeds on every list of encoded typed items. -/
lemma mapExcept_normalize (ws : List ExecutionItem) :
    mapExcept normalizeItem (ws.map ExecutionItem.toJson) =
      Except.ok (ws.map ExecutionItem.toJson) := by
  induction ws with
  | nil => rfl
  | cons w ws ih =>
    simp [mapExcept, normalize_toJson, ih]

/-- The whole try-block succeeds with the encoded item list when the network
answers 2xx with a parseable body whose items field is that encoded list. -/
lemma runFetch_success (env : Env) (net : String → FetchOutcome) (status : Nat)
    (stext : String) (data : Json) (ws : List ExecutionItem)
    (hnet : net (apiUrl env) = FetchOutcome.response status stext (Except.ok data))
    (hok : (200 ≤ status && status ≤ 299) = true)
    (hitems : jsGetField data "items" = Except.ok (Json.arr (ws.map ExecutionItem.toJson))) :
    runFetch env net = Except.ok (ws.map ExecutionItem.toJson) := by
  unfold runFetch
  rw [runFetchRaw_eq, show (getApiConfig env).fullUrl = apiUrl env from rfl, hnet]
  simp [fetchRawItems, hok, hitems, Json.truthy, Json.isArrayVal, Json.arrElems,
    mapExcept_normalize]

/-- C1: before the first fetch the item list is empty, and after every
completed run of fetchItems the item list is either empty or exactly the
result of normalizing the raw item list of this run's successful fetch — it
is never a partially populated sequence. -/
theorem fetchItems_items_all_or_nothing :
    initialState.items = [] ∧
    ∀ (env : Env) (net : String → FetchOutcome) (st : FetcherState),
      (fetchItems env net st).items = [] ∨
      ∃ raw, runFetchRaw env net = Except.ok raw ∧
        mapExcept normalizeItem raw = Except.ok (fetchItems env net st).items := by
  refine ⟨rfl, ?_⟩
  intro env net st
  cases hraw : runFetchRaw env net with
  | error m => left; simp [fetchItems, runFetch, hraw]
  | ok raw =>
    cases hm : mapExcept normalizeItem raw with
    | error m => left; simp [fetchItems, runFetch, hraw, hm]
    | ok ns => right; exact ⟨raw, rfl, by simp [fetchItems, runFetch, hraw, hm]⟩

/-- C2: for every well-formed 2xx response whose parsed body's items field is
a sequence of N encoded work items, the run completes with the items state
equal to the response sequence with each element's healthStatus replaced by
classifyStatus of that element (all other fields unchanged, order preserved),
length N, loading false, and no error. -/
theorem fetchItems_success_normalizes (env : Env) (net : String → FetchOutcome)
    (st : FetcherState) (status : Nat) (stext : String) (data : Json)
    (ws : List ExecutionItem)
    (hnet : net (apiUrl env) = FetchOutcome.response status stext (Except.ok data))
    (hok : (200 ≤ status && status ≤ 299) = true)
    (hitems : jsGetField data "items" = Except.ok (Json.arr (ws.map ExecutionItem.toJson))) :
    (fetchItems env net st).items =
      ws.map (fun w => ExecutionItem.toJson { w with healthStatus := classifyStatus w }) ∧
    (fetchItems env net st).items.length = ws.length ∧
    (fetchItems env net st).loading = false ∧
    (fetchItems env net st).error = none := by
  have hr := runFetch_success env net status stext data ws hnet hok hitems
  have hmap : ws.map (fun w => ExecutionItem.toJson { w with healthStatus := classifyStatus w })
      = ws.map ExecutionItem.toJson := rfl
  simp [fetchItems, hr, hmap]

/-- C2 witness: a concrete 200 response carrying one item. -/
theorem fetchItems_success_normalizes_witness :
    (fetchItems ⟨none, none⟩ sampleNet initialState).items =
      [sampleItem].map (fun w => ExecutionItem.toJson { w with healthStatus := classifyStatus w }) ∧
    (fetchItems ⟨none, none⟩ sampleNet initialState).items.length = [sampleItem].length ∧
    (fetchItems ⟨none, none⟩ sampleNet initialState).loading = false ∧
    (fetchItems ⟨none, none⟩ sampleNet initialState).error = none :=
  fetchItems_success_normalizes ⟨none, none⟩ sampleNet initialState 200 "OK" sampleBody
    [sampleItem] rfl rfl rfl

/-- C3: every failing run resolves to a state rather than propagating an
exception — fetchItems is a total function — and that state has the failure's
message in error, an empty item list (previously loaded data discarded), and
loading false. -/
theorem fetchItems_failure_resolves (env : Env) (net : String → FetchOutcome)
    (st : FetcherState) (msg : String)
    (h : runFetch env net = Except.error msg) :
    fetchItems env net st = { items := [], loading := false, error := some msg } := by
  unfold fetchItems
  rw [h]

/-- C3 witness: a transport failure on a state holding previously loaded
data. -/
theorem fetchItems_failure_resolves_witness :
    fetchItems ⟨none, none⟩ (fun _ => FetchOutcome.networkError "connection refused")
      { items := [Json.null], loading := false, error := none } =
      { items := [], loading := false, error := some "connection refused" } :=
  fetchItems_failure_resolves ⟨none, none⟩
    (fun _ => FetchOutcome.networkError "connection refused")
    { items := [Json.null], loading := false, error := none } "connection refused" rfl

/-- C4: for every pair of environment configuration values the resolved full
URL is non-empty (the endpoint component defaults to /api/execution-items
whenever its variable is empty or unset), so the configuration-error branch
of the try-block is unreachable: every run proceeds straight to the response
pipeline and can never produce the configuration error. -/
theorem configuration_error_unreachable :
    ∀ env : Env, (getApiConfig env).fullUrl ≠ "" ∧
      ∀ net : String → FetchOutcome,
        runFetchRaw env net = fetchRawItems (net (getApiConfig env).fullUrl) :=
  fun env => ⟨fullUrl_ne_empty env, fun net => runFetchRaw_eq env net⟩

/-- C5: for every 2xx response whose body parses as JSON but whose items
field is absent or is not an array, the run completes with an empty item
list and an error message that names the items field. -/
theorem fetchItems_invalid_items_validation (env : Env) (net : String → FetchOutcome)
    (st : FetcherState) (status : Nat) (stext : String) (data : Json)
    (hnet : net (apiUrl env) = FetchOutcome.response status stext (Except.ok data))
    (hok : (200 ≤ status && status ≤ 299) = true)
    (hnoarr : ∀ j, jsGetField data "items" = Except.ok j → j.isArrayVal = false) :
    (fetchItems env net st).items = [] ∧
    ∃ msg, (fetchItems env net st).error = some msg ∧ strContains msg "items" := by
  cases hg : jsGetField data "items" with
  | error m =>
    have hrf : runFetch env net = Except.error m := by
      unfold runFetch
      rw [runFetchRaw_eq, show (getApiConfig env).fullUrl = apiUrl env from rfl, hnet]
      simp [fetchRawItems, hok, hg]
    exact ⟨by simp [fetchItems, hrf],
      m, by simp [fetchItems, hrf], jsGetField_error_contains data "items" m hg⟩
  | ok j =>
    have hrf : runFetch env net = Except.error invalidItemsMsg := by
      unfold runFetch
      rw [runFetchRaw_eq, show (getApiConfig env).fullUrl = apiUrl env from rfl, hnet]
      simp [fetchRawItems, hok, hg, hnoarr j hg]
    exact ⟨by simp [fetchItems, hrf],
      invalidItemsMsg, by simp [fetchItems, hrf], invalidItemsMsg_contains⟩

/-- C5 witness: the spec's example body holding only a total of 10. -/
theorem fetchItems_invalid_items_validation_witness :
    (fetchItems ⟨none, none⟩ noItemsNet initialState).items = [] ∧
    ∃ msg, (fetchItems ⟨none, none⟩ noItemsNet initialState).error = some msg ∧
      strContains msg "items" :=
  fetchItems_invalid_items_validation ⟨none, none⟩ noItemsNet initialState 200 "OK"
    (Json.obj [("total", Json.num 10)]) rfl rfl
    (by intro j h; simp [jsGetField] at h; rw [← h]; rfl)

/-- C6: every response with a status outside the 2xx range completes as a
failure whose message carries both the numeric status code and the status
text, with items empty and loading false. -/
theorem fetchItems_http_status_error (env : Env) (net : String → FetchOutcome)
    (st : FetcherState) (status : Nat) (stext : String) (body : Except String Json)
    (hnet : net (apiUrl env) = FetchOutcome.response status stext body)
    (hbad : (200 ≤ status && status ≤ 299) = false) :
    fetchItems env net st =
      { items := [], loading := false, error := some (httpErrorMsg status stext) } ∧
    strContains (httpErrorMsg status stext) (toString status) ∧
    strContains (httpErrorMsg status stext) stext := by
  have hrf : runFetch env net = Except.error (httpErrorMsg status stext) := by
    unfold runFetch
    rw [runFetchRaw_eq, show (getApiConfig env).fullUrl = apiUrl env from rfl, hnet]
    simp [fetchRawItems, hbad]
  refine ⟨by simp [fetchItems, hrf], ?_, ?_⟩
  · exact ⟨"Failed to fetch execution items: ".data, (" " ++ stext).data,
      by simp [httpErrorMsg, data_append, List.append_assoc]⟩
  · exact ⟨("Failed to fetch execution items: " ++ (toString status ++ " ")).data, [],
      by simp [httpErrorMsg, data_append, List.append_assoc]⟩

/-- C6 witness: an HTTP 404 Not Found response. -/
theorem fetchItems_http_status_error_witness :
    fetchItems ⟨none, none⟩
        (fun _ => FetchOutcome.response 404 "Not Found" (Except.ok Json.null))
        initialState =
      { items := [], loading := false, error := some (httpErrorMsg 404 "Not Found") } ∧
    strContains (httpErrorMsg 404 "Not Found") (toString 404) ∧
    strContains (httpErrorMsg 404 "Not Found") "Not Found" :=
  fetchItems_http_status_error ⟨none, none⟩
    (fun _ => FetchOutcome.response 404 "Not Found" (Except.ok Json.null))
    initialState 404 "Not Found" (Except.ok Json.null) rfl rfl

end NexusUI
